import Mathlib

/-!
Verification of the brython-tk widget toolkit (`src/main.py`).

The development shallowly embeds the parts of the program that the
specification's claims are about:

* the reactive variables `StringVar` / `IntVar` / `BooleanVar` and the
  Python coercions `int(...)` / `bool(...)` they apply in `set`;
* the binding adapters (`Checkbutton`, `Radiobutton`, `Select`, `Scale`)
  and the order in which they commit the variable mutation and invoke the
  optional callback;
* the `Tk` root window and its `config(menu=...)` operation;
* the `Toplevel` floating window's drag-interaction state machine,
  including the listeners it registers on the shared `document.body`;
* the `Notebook` tabbed container: `add_tab`, `_select_tab` and the click
  handler `_on_tab_click`, together with the DOM nodes (trigger buttons
  and panels) they create and mutate.

Stateful Python objects become Lean structures, mutation becomes explicit
state passing, and a Python statement that can raise becomes a value in
`Except`, with the error carrying the state as of the last successful
step.
-/

/-- A Python runtime value, restricted to the types that flow through the
program's reactive variables: strings (DOM element values), integers and
booleans. -/
inductive Value
  | VStr : String → Value
  | VInt : Int → Value
  | VBool : Bool → Value
deriving DecidableEq, Repr

/-- Python truthiness, `bool(x)`: a string is truthy iff nonempty, an
integer iff nonzero, a boolean is itself. -/
def pyBool : Value → Bool
  | .VStr s => s ≠ ""
  | .VInt n => n ≠ 0
  | .VBool b => b

/-- Accumulates the value of a run of decimal digits; fails on the first
non-digit character. -/
def parseDigitsAux : List Char → Nat → Option Nat
  | [], acc => some acc
  | c :: cs, acc =>
    if c.isDigit then parseDigitsAux cs (acc * 10 + (c.toNat - 48)) else none

/-- Whitespace characters that Python `int` strips from a string
argument. -/
def isPySpace (c : Char) : Bool :=
  c = ' ' || c = '\t' || c = '\n' || c = '\r'

/-- Removes leading and trailing whitespace from a character list. -/
def trimChars (cs : List Char) : List Char :=
  ((cs.dropWhile isPySpace).reverse.dropWhile isPySpace).reverse

/-- Python `int(s)` on a string: optional surrounding whitespace, an
optional sign, then a nonempty run of decimal digits; anything else raises
`ValueError` (modelled as `none`). -/
def pyParseInt (s : String) : Option Int :=
  match trimChars s.toList with
  | [] => none
  | '-' :: rest =>
    if rest.isEmpty then none
    else (parseDigitsAux rest 0).map (fun n => -(n : Int))
  | '+' :: rest =>
    if rest.isEmpty then none
    else (parseDigitsAux rest 0).map (fun n => (n : Int))
  | cs => (parseDigitsAux cs 0).map (fun n => (n : Int))

/-- Python `int(x)` on the values the program passes to `IntVar.set`:
integers are returned unchanged, booleans become 0/1, strings are parsed;
`none` models a raised `ValueError`. -/
def pyInt : Value → Option Int
  | .VStr s => pyParseInt s
  | .VInt n => some n
  | .VBool b => some (if b then 1 else 0)

/-- The declared type of a reactive variable: `StringVar`, `IntVar` or
`BooleanVar` (src/main.py lines 422-456). -/
inductive VarKind
  | strV
  | intV
  | boolV
deriving DecidableEq, Repr

/-- The coercion a variable's `set` applies before storing, per kind:
`StringVar.set` stores its argument unchanged, `IntVar.set` stores
`int(value)` (which can raise, modelled by `Except.error`), and
`BooleanVar.set` stores `bool(value)`. -/
def varSet (k : VarKind) (x : Value) : Except Unit Value :=
  match k with
  | .strV => .ok x
  | .intV =>
    match pyInt x with
    | some n => .ok (Value.VInt n)
    | none => .error ()
  | .boolV => .ok (Value.VBool (pyBool x))

/-- The state of an `IntVar` (src/main.py lines 434-444): the stored
`_value`.  The constructor stores `initial_value` without coercion, so the
cell can hold a non-integer `Value`. -/
structure IntVar where
  value : Value
deriving DecidableEq, Repr

/-- Embedding of `IntVar.get`: returns the stored value. -/
def IntVar.get (v : IntVar) : Value := v.value

/-- Embedding of `IntVar.set`: `self._value = int(value)`.  `int(value)` is evaluated
before the assignment, so when it raises `ValueError` the assignment never
happens: the error result carries the unchanged cell. -/
def IntVar.set (v : IntVar) (x : Value) : Except IntVar IntVar :=
  match pyInt x with
  | some n => .ok ⟨Value.VInt n⟩
  | none => .error v

/-- The state of a `BooleanVar` (src/main.py lines 446-456).  As with
`IntVar`, the constructor stores `initial_value` uncoerced. -/
structure BooleanVar where
  value : Value
deriving DecidableEq, Repr

/-- Embedding of `BooleanVar.get`: returns the stored value. -/
def BooleanVar.get (v : BooleanVar) : Value := v.value

/-- Embedding of `BooleanVar.set`: `self._value = bool(value)`; `bool` never raises. -/
def BooleanVar.set (_v : BooleanVar) (x : Value) : BooleanVar :=
  ⟨Value.VBool (pyBool x)⟩

/-!
**Binding adapters**

Each adapter couples one reactive variable with an optional callback
(`command`).  The adapter state tracks the variable's stored value and a
log of callback invocations; each invocation records the variable value
the callback observes at the moment it runs (the callback can call
`variable.get()`), which is how "the callback runs only after the
mutation has committed" becomes checkable.
-/

/-- The observable state of a binding adapter: the kind and stored value
of the bound variable, and the values the bound variable held at each
callback invocation, in order. -/
structure Adapter where
  kind : VarKind
  varCell : Value
  callbackLog : List Value
deriving DecidableEq, Repr

/-- Invoking the optional `command` callback: when present it runs and
observes the variable's current value; when absent nothing happens. -/
def invokeCallback (a : Adapter) (hasCmd : Bool) : Adapter :=
  if hasCmd then { a with callbackLog := a.callbackLog ++ [a.varCell] } else a

/-- Embedding of `Checkbutton.update_variable` (src/main.py lines 232-235):
`self.variable.set(self.input_element.checked)` followed by
`if self.command: self.command(event)`.  If `set` raises, the `if` is
never reached and the exception propagates with the state unchanged. -/
def Checkbutton.update_variable (a : Adapter) (checked : Bool) (hasCmd : Bool) :
    Except Adapter Adapter :=
  match varSet a.kind (Value.VBool checked) with
  | .error _ => .error a
  | .ok v => .ok (invokeCallback { a with varCell := v } hasCmd)

/-- Embedding of `Radiobutton.update_variable` (src/main.py lines 262-265):
`self.variable.set(self.input_element.value)` — the radio input's value
is a string — then the optional callback. -/
def Radiobutton.update_variable (a : Adapter) (inputValue : String) (hasCmd : Bool) :
    Except Adapter Adapter :=
  match varSet a.kind (Value.VStr inputValue) with
  | .error _ => .error a
  | .ok v => .ok (invokeCallback { a with varCell := v } hasCmd)

/-- Embedding of `Select._on_select_change` (src/main.py lines 313-316):
`self.variable.set(self.element.value)` then the optional callback. -/
def Select.on_select_change (a : Adapter) (elementValue : String) (hasCmd : Bool) :
    Except Adapter Adapter :=
  match varSet a.kind (Value.VStr elementValue) with
  | .error _ => .error a
  | .ok v => .ok (invokeCallback { a with varCell := v } hasCmd)

/-- Embedding of `Scale._update_variable` (src/main.py lines 375-377): the listener
only mutates the variable; the range input's native value is a string. -/
def Scale.update_variable_listener (a : Adapter) (elementValue : String) :
    Except Adapter Adapter :=
  match varSet a.kind (Value.VStr elementValue) with
  | .error _ => .error a
  | .ok v => .ok { a with varCell := v }

/-- Dispatch of one `input` event on a `Scale`'s range element.  Unlike
the other adapters, `Scale.__init__` (src/main.py lines 358-373) registers
the variable mutation and the user callback as two separate listeners on
the same event, in that order.  Per DOM event dispatch, an uncaught
exception in one listener is reported by the host and the remaining
listeners still run, so a raising `set` does not suppress the callback. -/
def Scale.dispatchInput (a : Adapter) (elementValue : String)
    (hasVariable hasCmd : Bool) : Adapter :=
  let a1 :=
    if hasVariable then
      match Scale.update_variable_listener a elementValue with
      | .ok r => r
      | .error r => r
    else a
  invokeCallback a1 hasCmd

/-!
**The `Tk` root window**

`Tk.__init__` grabs three pre-existing DOM nodes: the window element, the
title-bar text (inside the chrome `.title-bar` region) and the
`.window-body` slot.  We track which widget nodes get attached to the
body slot and which to the chrome region.
-/

/-- The state of the `Tk` root window: the children attached to the
`.window-body` slot, the children attached to the chrome (title-bar)
region above the body, and the `widgets` list (src/main.py lines 8-36).
Widget nodes are identified by numbers. -/
structure Tk where
  windowBodyChildren : List Nat
  titleBarChildren : List Nat
  widgets : List Nat
deriving DecidableEq, Repr

/-- Embedding of `Tk.add_widget` (src/main.py lines 23-26): attaches the widget's
element to `window_body` and appends it to `widgets`. -/
def Tk.add_widget (t : Tk) (w : Nat) : Tk :=
  { t with
    windowBodyChildren := t.windowBodyChildren ++ [w],
    widgets := t.widgets ++ [w] }

/-- Embedding of `Tk.config(menu=menubar)` (src/main.py lines 32-36): adds the menubar
as a regular widget to the window body via `add_widget`. -/
def Tk.config_menu (t : Tk) (menubar : Nat) : Tk :=
  t.add_widget menubar

/-!
**The `Toplevel` floating window and its drag state machine**

`Toplevel.__init__` (src/main.py lines 39-69) creates the window element
at `top: 100px; left: 100px`, wires the close button to `destroy`, binds
`start_drag` to `mousedown` on the title bar, and sets
`self.parent_body = document.select_one('body')` — the shared input
surface on which the temporary drag listeners live.

The model tracks every floating window plus the ordered list of listeners
currently bound on the shared body.
-/

/-- A handler registered on the shared `document.body`: window `w`'s
bound method `do_drag` (for `mousemove`) or `stop_drag` (for
`mouseup`). -/
inductive Handler
  | doDrag (w : Nat)
  | stopDrag (w : Nat)
deriving DecidableEq, Repr

/-- The state of one `Toplevel` window: absolute position (the style
`left`/`top` in pixels), the drag flag, the captured pointer offset, the
`dragging` CSS class, and whether the element is still attached to the
document (`destroy` removes it). -/
structure TLWin where
  left : Int
  top : Int
  is_dragging : Bool
  offset_x : Int
  offset_y : Int
  dragClass : Bool
  inDom : Bool
deriving DecidableEq, Repr

/-- A freshly constructed `Toplevel`: position (100, 100) from the
initial style, not dragging, offsets 0, attached to the document. -/
def TLWin.new : TLWin :=
  { left := 100, top := 100, is_dragging := false,
    offset_x := 0, offset_y := 0, dragClass := false, inDom := true }

/-- The whole drag system: the floating windows (indexed by position) and
the listeners currently registered on the shared `document.body`, in
registration order. -/
structure DragSystem where
  wins : List TLWin
  listeners : List Handler
deriving DecidableEq, Repr

/-- Embedding of `Toplevel.start_drag` (src/main.py lines 71-78), run when a
`mousedown` on window `w`'s title bar is delivered.  If the event target
is a `BUTTON` (the close control is the only button in the chrome) it
returns immediately; otherwise it sets the drag flag and CSS class,
captures `client − offsetLeft/offsetTop`, and binds `do_drag` /
`stop_drag` on the shared body. -/
def Toplevel.start_drag (s : DragSystem) (w : Nat) (targetIsButton : Bool)
    (cx cy : Int) : DragSystem :=
  if targetIsButton then s
  else
    match s.wins.get? w with
    | none => s
    | some win =>
      let win2 :=
        { win with
          is_dragging := true
          dragClass := true
          offset_x := cx - win.left
          offset_y := cy - win.top }
      { wins := s.wins.set w win2
        listeners := s.listeners ++ [Handler.doDrag w, Handler.stopDrag w] }

/-- Embedding of `Toplevel.do_drag` (src/main.py lines 80-83): while the flag is set,
reposition the window to `pointer − captured offset`; otherwise do
nothing. -/
def Toplevel.do_drag (s : DragSystem) (w : Nat) (cx cy : Int) : DragSystem :=
  match s.wins.get? w with
  | none => s
  | some win =>
    if win.is_dragging then
      let win2 := { win with left := cx - win.offset_x, top := cy - win.offset_y }
      { s with wins := s.wins.set w win2 }
    else s

/-- Embedding of `Toplevel.stop_drag` (src/main.py lines 85-89): clear the flag and
CSS class and unbind this window's `do_drag` and `stop_drag` from the
shared body. -/
def Toplevel.stop_drag (s : DragSystem) (w : Nat) : DragSystem :=
  match s.wins.get? w with
  | none => s
  | some win =>
    let win2 := { win with is_dragging := false, dragClass := false }
    { wins := s.wins.set w win2
      listeners := s.listeners.filter
        (fun h => !(h == Handler.doDrag w || h == Handler.stopDrag w)) }

/-- Embedding of `Toplevel.destroy` (src/main.py lines 95-96): `self.element.remove()`
and nothing else — no listener teardown, no drag-flag reset. -/
def Toplevel.destroy (s : DragSystem) (w : Nat) : DragSystem :=
  match s.wins.get? w with
  | none => s
  | some win => { s with wins := s.wins.set w { win with inDom := false } }

/-- Dispatch of a `mousemove` on the shared body: the handlers bound at
dispatch start run in registration order; a handler removed by an earlier
handler of the same event is skipped (DOM removed-listener rule).  Only
`do_drag` handlers are bound for `mousemove`. -/
def dispatchMove (s : DragSystem) (cx cy : Int) : DragSystem :=
  s.listeners.foldl
    (fun st h =>
      match h with
      | Handler.doDrag w =>
        if st.listeners.contains h then Toplevel.do_drag st w cx cy else st
      | Handler.stopDrag _ => st)
    s

/-- Dispatch of a `mouseup` on the shared body: runs the bound
`stop_drag` handlers, same dispatch rules as `dispatchMove`. -/
def dispatchUp (s : DragSystem) (_cx _cy : Int) : DragSystem :=
  s.listeners.foldl
    (fun st h =>
      match h with
      | Handler.doDrag _ => st
      | Handler.stopDrag w =>
        if st.listeners.contains h then Toplevel.stop_drag st w else st)
    s

/-- An externally delivered input event for the drag system: a
`mousedown` on window `w`'s title bar (with whether the target is the
close `BUTTON`), a `mousemove` / `mouseup` on the shared body, or a click
on window `w`'s close control (which fires `destroy`). -/
inductive DragEvent
  | press (w : Nat) (targetIsButton : Bool) (cx cy : Int)
  | move (cx cy : Int)
  | release (cx cy : Int)
  | close (w : Nat)
deriving DecidableEq, Repr

/-- One event step of the drag system. -/
def DragSystem.step (s : DragSystem) : DragEvent → DragSystem
  | .press w b cx cy => Toplevel.start_drag s w b cx cy
  | .move cx cy => dispatchMove s cx cy
  | .release cx cy => dispatchUp s cx cy
  | .close w => Toplevel.destroy s w

/-- Running a sequence of input events. -/
def DragSystem.run (s : DragSystem) (es : List DragEvent) : DragSystem :=
  es.foldl DragSystem.step s

/-- The event trace of one drag session on window `w`: a press on the
title bar (not on the close control) at `(px, py)`, the given pointer
moves, and a release at `(rx, ry)`. -/
def sessionEvents (w : Nat) (px py : Int) (moves : List (Int × Int))
    (rx ry : Int) : List DragEvent :=
  DragEvent.press w false px py ::
    (moves.map (fun m => DragEvent.move m.1 m.2) ++ [DragEvent.release rx ry])

/-- The window record a drag session leaves behind, as the specification
describes it: the offset captured at the press is `pointer − top-left`,
the final position is `last move − offset` (unchanged if there was no
move), and the session ends not dragging. -/
def dragSessionOutcome (win : TLWin) (px py : Int) (moves : List (Int × Int)) : TLWin :=
  let ox := px - win.left
  let oy := py - win.top
  match moves.getLast? with
  | none =>
    { win with
      is_dragging := false
      dragClass := false
      offset_x := ox
      offset_y := oy }
  | some m =>
    { win with
      is_dragging := false
      dragClass := false
      offset_x := ox
      offset_y := oy
      left := m.1 - ox
      top := m.2 - oy }

/-!
**The `Notebook` tabbed container**

`Notebook` (src/main.py lines 121-178) keeps, per tab, a trigger
`BUTTON` (with `aria-controls` and `aria-selected` attributes) in its
`menu` element and an `ARTICLE` panel (with an `id` and a `hidden`
property) as a sibling; a Python dict `self.tabs` maps the derived tab
identifier to the button/panel pair, and `self.selected_tab` names the
selected identifier.

A button and its panel are created together and every mutation addresses
both through the same dict entry, so the model keeps them as one `Tab`
record per DOM position.  The dict is an association list with Python
semantics: inserting an existing key overwrites its value in place, so a
colliding `add_tab` leaves the earlier button/panel pair in the DOM but
unreachable from the dict.
-/

/-- One trigger-button/panel pair in the notebook's DOM: the derived tab
identifier (the button's `aria-controls` and the panel's `id`), the
button's `aria-selected` attribute, and the panel's `hidden` property. -/
structure Tab where
  id : String
  selected : Bool
  hidden : Bool
deriving DecidableEq, Repr

/-- Python `str.lower` on an ASCII character, composed with the
single-character `str.replace(' ', '-')` that `add_tab` applies. -/
def charMapTab (c : Char) : Char :=
  let c2 := if 65 ≤ c.toNat ∧ c.toNat ≤ 90 then Char.ofNat (c.toNat + 32) else c
  if c2 = ' ' then '-' else c2

/-- The identifier `add_tab` derives from a title:
`f"tab-{title.lower().replace(' ', '-')}"` (src/main.py line 136). -/
def tabIdOf (title : String) : String :=
  "tab-" ++ String.mk (title.toList.map charMapTab)

/-- Python dict assignment `d[k] = v`: overwrite the value in place when
the key exists, append the binding otherwise. -/
def dictSet (d : List (String × Nat)) (k : String) (v : Nat) : List (String × Nat) :=
  if d.any (fun p => p.1 == k) then
    d.map (fun p => if p.1 == k then (k, v) else p)
  else d ++ [(k, v)]

/-- Python dict lookup `d[k]`, `none` modelling a raised `KeyError`. -/
def dictGet (d : List (String × Nat)) (k : String) : Option Nat :=
  match d.find? (fun p => p.1 == k) with
  | some p => some p.2
  | none => none

/-- The state of a `Notebook`: the button/panel pairs in DOM order, the
`self.tabs` dict mapping identifiers to the pair they were last bound to
(modelled as the pair's DOM index), and `self.selected_tab`. -/
structure Notebook where
  doms : List Tab
  tabs : List (String × Nat)
  selected_tab : Option String
deriving DecidableEq, Repr

/-- A freshly constructed `Notebook` (src/main.py lines 123-132): no
tabs, nothing selected. -/
def Notebook.init : Notebook :=
  { doms := [], tabs := [], selected_tab := none }

/-- Embedding of `Notebook.add_tab` (src/main.py lines 134-161): derive the
identifier; the button's `aria-selected` is `str(is_first_tab).lower()`
and the panel is `hidden` unless this is the first tab (dict emptiness
decides "first"); append button and panel to the DOM, bind the dict key,
and mark the tab selected when first. -/
def Notebook.add_tab (nb : Notebook) (title : String) : Notebook :=
  let tid := tabIdOf title
  let isFirst := nb.tabs.isEmpty
  { doms := nb.doms ++ [{ id := tid, selected := isFirst, hidden := !isFirst }]
    tabs := dictSet nb.tabs tid nb.doms.length
    selected_tab := if isFirst then some tid else nb.selected_tab }

/-- Sets the `aria-selected` attribute of the button and the `hidden`
property of the panel at DOM index `i`. -/
def tabSet (l : List Tab) (i : Nat) (sel hid : Bool) : List Tab :=
  match l.get? i with
  | none => l
  | some t => l.set i { t with selected := sel, hidden := hid }

/-- The first half of `Notebook._select_tab` (src/main.py lines
172-174): when a tab is selected, clear its button's indicator and hide
its panel. -/
def Notebook.clearSelected (nb : Notebook) : Notebook :=
  match nb.selected_tab with
  | none => nb
  | some st =>
    match dictGet nb.tabs st with
    | none => nb
    | some i => { nb with doms := tabSet nb.doms i false true }

/-- Embedding of `Notebook._select_tab` (src/main.py lines 170-178): clear the current
selection, then set the target's indicator, unhide its panel and record
it as selected.  A `tab_id` missing from the dict raises `KeyError`
(`none`); the clearing half already ran in that case, which is why the
click handler below keeps the partially mutated state. -/
def Notebook.select_tab (nb : Notebook) (tid : String) : Option Notebook :=
  let nb1 := nb.clearSelected
  match dictGet nb1.tabs tid with
  | none => none
  | some i =>
    some
      { nb1 with
        doms := tabSet nb1.doms i true false
        selected_tab := some tid }

/-- Embedding of `Notebook._on_tab_click` (src/main.py lines 163-168): the click
target is either the trigger button at DOM index `i` (`some i`) or some
non-`BUTTON` node (`none`), in which case the click is ignored; for a
button, the identifier is read back from its `aria-controls` attribute
and `_select_tab` runs on it.  Such an identifier is always a dict key,
so the `KeyError` fallback is unreachable. -/
def Notebook.on_tab_click (nb : Notebook) (target : Option Nat) : Notebook :=
  match target with
  | none => nb
  | some i =>
    match nb.doms.get? i with
    | none => nb
    | some t =>
      match nb.select_tab t.id with
      | some nb2 => nb2
      | none => nb.clearSelected

/-- An externally delivered event for the notebook: an `add_tab` call or
a click on the tab strip (target as in `Notebook.on_tab_click`). -/
inductive NbEvent
  | addTab (title : String)
  | click (target : Option Nat)
deriving DecidableEq, Repr

/-- One event step of the notebook. -/
def Notebook.step (nb : Notebook) : NbEvent → Notebook
  | .addTab t => nb.add_tab t
  | .click tg => nb.on_tab_click tg

/-- Running a sequence of notebook events. -/
def Notebook.run (nb : Notebook) (es : List NbEvent) : Notebook :=
  es.foldl Notebook.step nb

/-- The number of non-hidden panels in the notebook's DOM. -/
def Notebook.visibleCount (nb : Notebook) : Nat :=
  (nb.doms.filter (fun t => !t.hidden)).length

/-- The tab-exclusivity property as the specification states it: with no
tabs, no panel is visible; otherwise exactly one panel is visible, a tab
is recorded as selected, and a panel is visible / a trigger indicator set
exactly when its identifier is the selected one. -/
def Notebook.exclusive (nb : Notebook) : Prop :=
  (nb.doms = [] → nb.visibleCount = 0) ∧
  (nb.doms ≠ [] →
    nb.visibleCount = 1 ∧
    ∃ tid, nb.selected_tab = some tid ∧
      ∀ t ∈ nb.doms, (t.hidden = false ↔ t.id = tid) ∧ (t.selected = true ↔ t.id = tid))

/-- The identifiers derived by the `add_tab` calls of an event
sequence, in order. -/
def addedIds (es : List NbEvent) : List String :=
  es.filterMap (fun e =>
    match e with
    | NbEvent.addTab t => some (tabIdOf t)
    | NbEvent.click _ => none)

/-!
**Theorems for the claims**
-/

/-- C4: for every input that cannot be parsed as an integer, `IntVar.set`
raises a `ValueError`-class error that propagates to the caller (the
result is `Except.error`, not a swallowed success), and the stored value
is unchanged, so a subsequent `get` returns the value from before the
failed `set`. -/
theorem intvar_set_error_propagates (v : IntVar) (x : Value)
    (h : pyInt x = none) :
    IntVar.set v x = Except.error v ∧
    ∀ e : IntVar, IntVar.set v x = Except.error e → e.get = v.get := by
  refine ⟨?_, ?_⟩
  · simp [IntVar.set, h]
  · intro e he
    simp [IntVar.set, h] at he
    rw [← he]

/-- Witness for `intvar_set_error_propagates` at the unparseable input
`"abc"` on a cell holding `5`. -/
theorem intvar_set_error_propagates_witness :
    IntVar.set ⟨Value.VInt 5⟩ (Value.VStr "abc") = Except.error ⟨Value.VInt 5⟩ ∧
    ∀ e : IntVar,
      IntVar.set ⟨Value.VInt 5⟩ (Value.VStr "abc") = Except.error e →
        e.get = IntVar.get ⟨Value.VInt 5⟩ :=
  intvar_set_error_propagates ⟨Value.VInt 5⟩ (Value.VStr "abc") (by decide)

/-- C9 counterexample: the claim "`set(get())` leaves the stored value
unchanged in any state" fails on the code.  The constructors store
`initial_value` without coercion, so `IntVar(initial_value="7")` holds
the string `"7"` and `set(get())` replaces it with the integer `7`;
likewise `BooleanVar(initial_value="no")` holds `"no"` and `set(get())`
replaces it with `True`. -/
theorem var_coercion_idempotence_cex :
    IntVar.set ⟨Value.VStr "7"⟩ (IntVar.get ⟨Value.VStr "7"⟩) =
      Except.ok ⟨Value.VInt 7⟩ ∧
    Value.VInt 7 ≠ Value.VStr "7" ∧
    (BooleanVar.set ⟨Value.VStr "no"⟩ (BooleanVar.get ⟨Value.VStr "no"⟩)).value =
      Value.VBool true ∧
    Value.VBool true ≠ Value.VStr "no" := by
  refine ⟨by rfl, by decide, by rfl, by decide⟩

/-- C9 (amended): on every stored value of the variable's declared type —
which covers every state produced by a successful `set`, and the default
initial values `0` / `False` — `set(get())` leaves the stored value
unchanged: the canonical coercion is idempotent on already-coerced
values.  The last two conjuncts show every state reached through `set`
has this shape. -/
theorem var_coercion_idempotence :
    (∀ n : Int, IntVar.set ⟨Value.VInt n⟩ (IntVar.get ⟨Value.VInt n⟩) =
        Except.ok ⟨Value.VInt n⟩) ∧
    (∀ b : Bool, BooleanVar.set ⟨Value.VBool b⟩ (BooleanVar.get ⟨Value.VBool b⟩) =
        ⟨Value.VBool b⟩) ∧
    (∀ (v r : IntVar) (x : Value), IntVar.set v x = Except.ok r →
        ∃ n : Int, r.value = Value.VInt n) ∧
    (∀ (v : BooleanVar) (x : Value), ∃ b : Bool,
        (BooleanVar.set v x).value = Value.VBool b) := by
  refine ⟨?_, ?_, ?_, ?_⟩
  · intro n; simp [IntVar.set, IntVar.get, pyInt]
  · intro b; cases b <;> rfl
  · intro v r x h
    unfold IntVar.set at h
    cases hp : pyInt x with
    | none => rw [hp] at h; exact absurd h (by simp)
    | some n => rw [hp] at h; simp at h; exact ⟨n, by rw [← h]⟩
  · intro v x; exact ⟨pyBool x, rfl⟩

/-- Witness for `var_coercion_idempotence`: concrete instances of each
conjunct, with the hypothesis of the third discharged by the concrete
successful `set` of `3`. -/
theorem var_coercion_idempotence_witness :
    IntVar.set ⟨Value.VInt 50⟩ (IntVar.get ⟨Value.VInt 50⟩) =
      Except.ok ⟨Value.VInt 50⟩ ∧
    BooleanVar.set ⟨Value.VBool false⟩ (BooleanVar.get ⟨Value.VBool false⟩) =
      ⟨Value.VBool false⟩ ∧
    (∃ n : Int, (⟨Value.VInt 3⟩ : IntVar).value = Value.VInt n) ∧
    (∃ b : Bool,
      (BooleanVar.set ⟨Value.VStr "x"⟩ (Value.VStr "x")).value = Value.VBool b) :=
  ⟨var_coercion_idempotence.1 50,
   var_coercion_idempotence.2.1 false,
   var_coercion_idempotence.2.2.1 ⟨Value.VInt 3⟩ ⟨Value.VInt 3⟩ (Value.VInt 3)
     (by rfl),
   var_coercion_idempotence.2.2.2 ⟨Value.VStr "x"⟩ (Value.VStr "x")⟩

/-- C7 counterexample: the claim that `config(menu=...)` places the
menu-bar in the chrome region rather than in the body slot fails —
`Tk.config` calls `add_widget`, which attaches the node to
`window_body`, and the chrome region stays empty. -/
theorem tk_config_menu_cex :
    (Tk.config_menu ⟨[], [], []⟩ 1).windowBodyChildren = [1] ∧
    (Tk.config_menu ⟨[], [], []⟩ 1).titleBarChildren = [] := by
  refine ⟨by decide, by decide⟩

/-- C7 (amended): designating a menu-bar via `config(menu=...)` appends
its node as a regular child of the window's body slot — the chrome
region above the body is untouched — and registers it in the widgets
list. -/
theorem tk_config_menu_body_attach (t : Tk) (m : Nat) :
    (Tk.config_menu t m).windowBodyChildren = t.windowBodyChildren ++ [m] ∧
    (Tk.config_menu t m).titleBarChildren = t.titleBarChildren ∧
    (Tk.config_menu t m).widgets = t.widgets ++ [m] := by
  refine ⟨rfl, rfl, rfl⟩

/-- C5 counterexample: the claim "if `set` on the variable raises, the
callback is not invoked" fails for the slider adapter.  `Scale.__init__`
registers the variable mutation and the user callback as two separate
`input` listeners, so on an input event whose native value `"abc"` makes
`IntVar.set` raise, the variable stays at `50` (the mutation did not
commit) and the callback still runs. -/
theorem adapter_callback_after_commit_cex :
    varSet VarKind.intV (Value.VStr "abc") = Except.error () ∧
    Scale.dispatchInput ⟨VarKind.intV, Value.VInt 50, []⟩ "abc" true true =
      ⟨VarKind.intV, Value.VInt 50, [Value.VInt 50]⟩ := by
  refine ⟨by rfl, by rfl⟩

/-- C5 (amended): for the toggle, exclusive-choice-group and dropdown
adapters the claimed property holds — on each input event the callback
is invoked only after the variable mutation has committed, a raising
`set` skips the callback and leaves the state unchanged, and the
callback observes the newly committed value.  For the slider the
mutation and the callback are separate listeners registered in that
order: when `set` succeeds the callback likewise observes the committed
value, but when `set` raises the callback still runs (observing the old
value), as the counterexample shows. -/
theorem adapter_callback_after_commit (a : Adapter) (checked : Bool)
    (rv sv cv : String) (hasCmd : Bool) :
    (∀ e, Checkbutton.update_variable a checked hasCmd = Except.error e →
      e = a) ∧
    (∀ r, Checkbutton.update_variable a checked hasCmd = Except.ok r →
      varSet a.kind (Value.VBool checked) = Except.ok r.varCell ∧
      r.callbackLog = a.callbackLog ++ (if hasCmd then [r.varCell] else [])) ∧
    (∀ e, Radiobutton.update_variable a rv hasCmd = Except.error e → e = a) ∧
    (∀ r, Radiobutton.update_variable a rv hasCmd = Except.ok r →
      varSet a.kind (Value.VStr rv) = Except.ok r.varCell ∧
      r.callbackLog = a.callbackLog ++ (if hasCmd then [r.varCell] else [])) ∧
    (∀ e, Select.on_select_change a sv hasCmd = Except.error e → e = a) ∧
    (∀ r, Select.on_select_change a sv hasCmd = Except.ok r →
      varSet a.kind (Value.VStr sv) = Except.ok r.varCell ∧
      r.callbackLog = a.callbackLog ++ (if hasCmd then [r.varCell] else [])) ∧
    (∀ v, varSet a.kind (Value.VStr cv) = Except.ok v →
      (Scale.dispatchInput a cv true hasCmd).varCell = v ∧
      (Scale.dispatchInput a cv true hasCmd).callbackLog =
        a.callbackLog ++ (if hasCmd then [v] else [])) ∧
    (varSet a.kind (Value.VStr cv) = Except.error () →
      (Scale.dispatchInput a cv true hasCmd).varCell = a.varCell ∧
      (Scale.dispatchInput a cv true hasCmd).callbackLog =
        a.callbackLog ++ (if hasCmd then [a.varCell] else [])) := by
  refine ⟨?_, ?_, ?_, ?_, ?_, ?_, ?_, ?_⟩
  · intro e he
    unfold Checkbutton.update_variable at he
    cases h : varSet a.kind (Value.VBool checked) with
    | error u => rw [h] at he; simp at he; exact he.symm
    | ok v => rw [h] at he; simp at he
  · intro r hr
    unfold Checkbutton.update_variable at hr
    cases h : varSet a.kind (Value.VBool checked) with
    | error u => rw [h] at hr; simp at hr
    | ok v =>
      rw [h] at hr; simp at hr
      subst hr
      unfold invokeCallback
      cases hasCmd <;> simp
  · intro e he
    unfold Radiobutton.update_variable at he
    cases h : varSet a.kind (Value.VStr rv) with
    | error u => rw [h] at he; simp at he; exact he.symm
    | ok v => rw [h] at he; simp at he
  · intro r hr
    unfold Radiobutton.update_variable at hr
    cases h : varSet a.kind (Value.VStr rv) with
    | error u => rw [h] at hr; simp at hr
    | ok v =>
      rw [h] at hr; simp at hr
      subst hr
      unfold invokeCallback
      cases hasCmd <;> simp
  · intro e he
    unfold Select.on_select_change at he
    cases h : varSet a.kind (Value.VStr sv) with
    | error u => rw [h] at he; simp at he; exact he.symm
    | ok v => rw [h] at he; simp at he
  · intro r hr
    unfold Select.on_select_change at hr
    cases h : varSet a.kind (Value.VStr sv) with
    | error u => rw [h] at hr; simp at hr
    | ok v =>
      rw [h] at hr; simp at hr
      subst hr
      unfold invokeCallback
      cases hasCmd <;> simp
  · intro v hv
    unfold Scale.dispatchInput Scale.update_variable_listener
    rw [hv]
    unfold invokeCallback
    cases hasCmd <;> simp
  · intro hv
    unfold Scale.dispatchInput Scale.update_variable_listener
    rw [hv]
    unfold invokeCallback
    cases hasCmd <;> simp

/-- Witness for `adapter_callback_after_commit`: a toggle bound to a
boolean variable commits `True` before its callback, and a slider bound
to an integer variable holding `50` commits `75` from the native value
`"75"`; the `Except.ok` hypotheses are discharged on these concrete
runs. -/
theorem adapter_callback_after_commit_witness :
    varSet VarKind.boolV (Value.VBool true) = Except.ok (Value.VBool true) ∧
    (Scale.dispatchInput ⟨VarKind.intV, Value.VInt 50, []⟩ "75" true true).varCell =
      Value.VInt 75 ∧
    (Scale.dispatchInput ⟨VarKind.intV, Value.VInt 50, []⟩ "75" true true).callbackLog =
      [Value.VInt 75] := by
  have h1 :=
    (adapter_callback_after_commit ⟨VarKind.boolV, Value.VBool false, []⟩ true
      "x" "y" "z" true).2.1
      ⟨VarKind.boolV, Value.VBool true, [Value.VBool true]⟩ (by rfl)
  have h2 :=
    (adapter_callback_after_commit ⟨VarKind.intV, Value.VInt 50, []⟩ true
      "x" "y" "75" true).2.2.2.2.2.2.1 (Value.VInt 75) (by rfl)
  exact ⟨h1.1, h2.1, h2.2⟩

/-- C8: a pointer-press on a Floating Window's chrome whose target is the
close control (the only `BUTTON` in the chrome) leaves the whole system
unchanged: `start_drag` returns before setting `is_dragging`, capturing
an offset, or registering listeners on the shared body. -/
theorem press_close_control_no_drag (s : DragSystem) (w : Nat) (cx cy : Int) :
    (DragSystem.step s (DragEvent.press w true cx cy)).listeners = s.listeners ∧
    (∀ w', (DragSystem.step s (DragEvent.press w true cx cy)).wins.get? w' =
      s.wins.get? w') ∧
    DragSystem.step s (DragEvent.press w true cx cy) = s := by
  refine ⟨rfl, fun _ => rfl, rfl⟩

/-- C6: the first tab added to an empty Tabbed Container becomes the
selected tab, its panel is created visible and its trigger's
`aria-selected` is `true`, all without a `select` call; every later tab
is appended with a hidden panel and a `false` indicator, leaving the
selection unchanged. -/
theorem notebook_first_tab_default (nb : Notebook) (title : String) :
    (nb.tabs.isEmpty = true →
      (nb.add_tab title).selected_tab = some (tabIdOf title) ∧
      (nb.add_tab title).doms =
        nb.doms ++ [{ id := tabIdOf title, selected := true, hidden := false }]) ∧
    (nb.tabs.isEmpty = false →
      (nb.add_tab title).selected_tab = nb.selected_tab ∧
      (nb.add_tab title).doms =
        nb.doms ++ [{ id := tabIdOf title, selected := false, hidden := true }]) := by
  constructor
  · intro h
    constructor
    · simp [Notebook.add_tab, h]
    · simp [Notebook.add_tab, h]
  · intro h
    constructor
    · simp [Notebook.add_tab, h]
    · simp [Notebook.add_tab, h]

/-- Witness for `notebook_first_tab_default`: adding "Greetings" to an
empty notebook selects `tab-greetings` and shows its panel; adding
"Widgets" afterwards keeps the selection and appends a hidden panel. -/
theorem notebook_first_tab_default_witness :
    (Notebook.init.add_tab "Greetings").selected_tab = some "tab-greetings" ∧
    (Notebook.init.add_tab "Greetings").doms =
      [{ id := "tab-greetings", selected := true, hidden := false }] ∧
    ((Notebook.init.add_tab "Greetings").add_tab "Widgets").selected_tab =
      some "tab-greetings" ∧
    ((Notebook.init.add_tab "Greetings").add_tab "Widgets").doms =
      [{ id := "tab-greetings", selected := true, hidden := false },
       { id := "tab-widgets", selected := false, hidden := true }] := by
  have h1 := (notebook_first_tab_default Notebook.init "Greetings").1 (by rfl)
  have h2 :=
    (notebook_first_tab_default (Notebook.init.add_tab "Greetings") "Widgets").2
      (by rfl)
  refine ⟨?_, ?_, ?_, ?_⟩
  · rw [h1.1]; rfl
  · rw [h1.2]; rfl
  · rw [h2.1, h1.1]; rfl
  · rw [h2.2, h1.2]; rfl

/-!
**Drag-session behavior**

The following helper lemmas describe one drag session: while exactly the
pair `[do_drag w, stop_drag w]` is bound on the shared body, a
`mousemove` dispatch is the single `do_drag` call and a `mouseup`
dispatch is the single `stop_drag` call; a chain of moves keeps the pair
bound and leaves the window at `last move − offset`.
-/

theorem do_drag_listeners (s : DragSystem) (w : Nat) (cx cy : Int) :
    (Toplevel.do_drag s w cx cy).listeners = s.listeners := by
  unfold Toplevel.do_drag
  cases h : s.wins.get? w with
  | none => rfl
  | some win =>
    by_cases hd : win.is_dragging
    · simp [hd]
    · simp [hd]

theorem dispatchMove_pair (s : DragSystem) (w : Nat) (cx cy : Int)
    (h : s.listeners = [Handler.doDrag w, Handler.stopDrag w]) :
    dispatchMove s cx cy = Toplevel.do_drag s w cx cy := by
  unfold dispatchMove
  rw [h]
  simp [List.foldl, h, List.contains_cons]

theorem dispatchUp_pair (s : DragSystem) (w : Nat) (cx cy : Int)
    (h : s.listeners = [Handler.doDrag w, Handler.stopDrag w]) :
    dispatchUp s cx cy = Toplevel.stop_drag s w := by
  unfold dispatchUp
  rw [h]
  simp [List.foldl, h, List.contains_cons]

theorem run_moves_dragging (moves : List (Int × Int)) (s : DragSystem)
    (w : Nat) (win : TLWin)
    (hL : s.listeners = [Handler.doDrag w, Handler.stopDrag w])
    (hw : s.wins.get? w = some win) (hd : win.is_dragging = true) :
    (DragSystem.run s (moves.map (fun m => DragEvent.move m.1 m.2))).listeners =
      [Handler.doDrag w, Handler.stopDrag w] ∧
    (∀ w', w' ≠ w →
      (DragSystem.run s (moves.map (fun m => DragEvent.move m.1 m.2))).wins.get? w' =
        s.wins.get? w') ∧
    (DragSystem.run s (moves.map (fun m => DragEvent.move m.1 m.2))).wins.get? w =
      some (match moves.getLast? with
        | none => win
        | some m => { win with left := m.1 - win.offset_x, top := m.2 - win.offset_y }) := by
  induction moves generalizing s win with
  | nil =>
    refine ⟨hL, fun _ _ => rfl, ?_⟩
    simpa using hw
  | cons m ms ih =>
    have hlt : w < s.wins.length := (List.get?_eq_some.mp hw).1
    have hstep : DragSystem.step s (DragEvent.move m.1 m.2) =
        Toplevel.do_drag s w m.1 m.2 := dispatchMove_pair s w m.1 m.2 hL
    have hdo : Toplevel.do_drag s w m.1 m.2 =
        { s with wins := (s.wins.set w
            { win with left := m.1 - win.offset_x, top := m.2 - win.offset_y }) } := by
      unfold Toplevel.do_drag
      rw [hw]
      simp [hd]
    set win1 : TLWin :=
      { win with left := m.1 - win.offset_x, top := m.2 - win.offset_y } with hwin1
    set s1 : DragSystem := { s with wins := s.wins.set w win1 } with hs1
    have hrun : DragSystem.run s
        ((m :: ms).map (fun m => DragEvent.move m.1 m.2)) =
        DragSystem.run s1 (ms.map (fun m => DragEvent.move m.1 m.2)) := by
      simp only [List.map_cons, DragSystem.run, List.foldl_cons]
      rw [show DragSystem.step s (DragEvent.move m.1 m.2) = s1 from hstep.trans hdo]
    have hL1 : s1.listeners = [Handler.doDrag w, Handler.stopDrag w] := hL
    have hw1 : s1.wins.get? w = some win1 := by
      simpa [hs1] using List.getElem?_set_eq_of_lt win1 hlt
    have hd1 : win1.is_dragging = true := hd
    obtain ⟨ihL, ihO, ihW⟩ := ih s1 win1 hL1 hw1 hd1
    refine ⟨by rw [hrun]; exact ihL, ?_, ?_⟩
    · intro w' hne
      rw [hrun, ihO w' hne]
      simp [hs1, List.getElem?_set_ne (fun h => hne h.symm)]
    · rw [hrun, ihW]
      cases ms with
      | nil => simp
      | cons y ys =>
        rw [List.getLast?_cons_cons]
        cases hlast : (y :: ys).getLast? with
        | none => simp at hlast
        | some m2 => simp [hwin1]

theorem dragSession_behavior (s : DragSystem) (w : Nat) (win : TLWin)
    (px py : Int) (moves : List (Int × Int)) (rx ry : Int)
    (hL : s.listeners = []) (hw : s.wins.get? w = some win) :
    (DragSystem.run s (sessionEvents w px py moves rx ry)).listeners = [] ∧
    (∀ w', w' ≠ w →
      (DragSystem.run s (sessionEvents w px py moves rx ry)).wins.get? w' =
        s.wins.get? w') ∧
    (DragSystem.run s (sessionEvents w px py moves rx ry)).wins.get? w =
      some (dragSessionOutcome win px py moves) := by
  have hlt : w < s.wins.length := (List.get?_eq_some.mp hw).1
  set dWin : TLWin :=
    { win with
      is_dragging := true
      dragClass := true
      offset_x := px - win.left
      offset_y := py - win.top } with hdWin
  set s1 : DragSystem :=
    { wins := s.wins.set w dWin
      listeners := [Handler.doDrag w, Handler.stopDrag w] } with hs1
  have hpress : DragSystem.step s (DragEvent.press w false px py) = s1 := by
    show Toplevel.start_drag s w false px py = s1
    unfold Toplevel.start_drag
    rw [hw]
    simp [hs1, hL, hdWin]
  have hsplit : DragSystem.run s (sessionEvents w px py moves rx ry) =
      DragSystem.step
        (DragSystem.run s1 (moves.map (fun m => DragEvent.move m.1 m.2)))
        (DragEvent.release rx ry) := by
    unfold sessionEvents DragSystem.run
    rw [List.foldl_cons, List.foldl_append]
    rw [show DragSystem.step s (DragEvent.press w false px py) = s1 from hpress]
    rfl
  have hw1 : s1.wins.get? w = some dWin := by
    simpa [hs1] using List.getElem?_set_eq_of_lt dWin hlt
  obtain ⟨ihL, ihO, ihW⟩ :=
    run_moves_dragging moves s1 w dWin (by rw [hs1]) hw1 (by rw [hdWin])
  set s2 : DragSystem :=
    DragSystem.run s1 (moves.map (fun m => DragEvent.move m.1 m.2)) with hs2
  set winF : TLWin :=
    (match moves.getLast? with
      | none => dWin
      | some m => { dWin with left := m.1 - dWin.offset_x, top := m.2 - dWin.offset_y })
    with hwinF
  have hlt2 : w < s2.wins.length := (List.get?_eq_some.mp ihW).1
  have hrel : DragSystem.step s2 (DragEvent.release rx ry) =
      Toplevel.stop_drag s2 w := dispatchUp_pair s2 w rx ry ihL
  set winG : TLWin := { winF with is_dragging := false, dragClass := false }
    with hwinG
  set s3 : DragSystem := { wins := s2.wins.set w winG, listeners := [] } with hs3
  have hstop : Toplevel.stop_drag s2 w = s3 := by
    unfold Toplevel.stop_drag
    rw [ihW]
    have hfil : s2.listeners.filter
        (fun h => !(h == Handler.doDrag w || h == Handler.stopDrag w)) = [] := by
      rw [ihL]
      simp
    rw [hfil]
  rw [hsplit, hrel, hstop]
  refine ⟨by rw [hs3], ?_, ?_⟩
  · intro w' hne
    have h1 : s3.wins.get? w' = s2.wins.get? w' := by
      rw [hs3]
      simp only [List.get?_eq_getElem?]
      exact List.getElem?_set_ne (fun h => hne h.symm)
    have h2 : s1.wins.get? w' = s.wins.get? w' := by
      rw [hs1]
      simp only [List.get?_eq_getElem?]
      exact List.getElem?_set_ne (fun h => hne h.symm)
    rw [h1, ihO w' hne, h2]
  · have h1 : s3.wins.get? w = some winG := by
      rw [hs3]
      simp only [List.get?_eq_getElem?]
      exact List.getElem?_set_eq_of_lt winG hlt2
    rw [h1]
    unfold dragSessionOutcome
    cases hms : moves.getLast? with
    | none => simp [hwinG, hwinF, hms, hdWin]
    | some m => simp [hwinG, hwinF, hms, hdWin]

/-- C2: a drag session (press on the title bar, N moves, release) on a
Floating Window leaves zero session listeners on the shared body, leaves
every other window untouched and the dragged window not dragging; and
from the resulting state a second session — on the same or another
window — produces exactly the same specified outcome
(`dragSessionOutcome`) as the first did, with zero residual listeners
again. -/
theorem drag_listener_hygiene (s : DragSystem) (w w2 : Nat) (win : TLWin)
    (px py rx ry : Int) (moves : List (Int × Int))
    (px2 py2 rx2 ry2 : Int) (moves2 : List (Int × Int))
    (hL : s.listeners = []) (hw : s.wins.get? w = some win) :
    (DragSystem.run s (sessionEvents w px py moves rx ry)).listeners = [] ∧
    (DragSystem.run s (sessionEvents w px py moves rx ry)).wins.get? w =
      some (dragSessionOutcome win px py moves) ∧
    (dragSessionOutcome win px py moves).is_dragging = false ∧
    (∀ w', w' ≠ w →
      (DragSystem.run s (sessionEvents w px py moves rx ry)).wins.get? w' =
        s.wins.get? w') ∧
    (∀ win2,
      (DragSystem.run s (sessionEvents w px py moves rx ry)).wins.get? w2 =
          some win2 →
      (DragSystem.run (DragSystem.run s (sessionEvents w px py moves rx ry))
          (sessionEvents w2 px2 py2 moves2 rx2 ry2)).listeners = [] ∧
      (DragSystem.run (DragSystem.run s (sessionEvents w px py moves rx ry))
          (sessionEvents w2 px2 py2 moves2 rx2 ry2)).wins.get? w2 =
        some (dragSessionOutcome win2 px2 py2 moves2)) := by
  obtain ⟨h1, h2, h3⟩ := dragSession_behavior s w win px py moves rx ry hL hw
  refine ⟨h1, h3, ?_, h2, ?_⟩
  · unfold dragSessionOutcome
    cases moves.getLast? <;> rfl
  · intro win2 hw2
    obtain ⟨g1, g2, g3⟩ :=
      dragSession_behavior (DragSystem.run s (sessionEvents w px py moves rx ry))
        w2 win2 px2 py2 moves2 rx2 ry2 h1 hw2
    exact ⟨g1, g3⟩

/-- Witness for `drag_listener_hygiene`: a clean two-window system; a
session on window 0 (press (110,110), move (150,160), release) followed
by a session on window 1 (press (105,120), move (300,400), release).
Both sessions end with zero listeners and the specified positions. -/
theorem drag_listener_hygiene_witness :
    (DragSystem.run { wins := [TLWin.new, TLWin.new], listeners := [] }
        (sessionEvents 0 110 110 [(150, 160)] 150 160)).listeners = [] ∧
    (DragSystem.run { wins := [TLWin.new, TLWin.new], listeners := [] }
        (sessionEvents 0 110 110 [(150, 160)] 150 160)).wins.get? 0 =
      some (dragSessionOutcome TLWin.new 110 110 [(150, 160)]) ∧
    (DragSystem.run
        (DragSystem.run { wins := [TLWin.new, TLWin.new], listeners := [] }
          (sessionEvents 0 110 110 [(150, 160)] 150 160))
        (sessionEvents 1 105 120 [(300, 400)] 300 400)).listeners = [] ∧
    (DragSystem.run
        (DragSystem.run { wins := [TLWin.new, TLWin.new], listeners := [] }
          (sessionEvents 0 110 110 [(150, 160)] 150 160))
        (sessionEvents 1 105 120 [(300, 400)] 300 400)).wins.get? 1 =
      some (dragSessionOutcome TLWin.new 105 120 [(300, 400)]) := by
  have h := drag_listener_hygiene
    { wins := [TLWin.new, TLWin.new], listeners := [] } 0 1 TLWin.new
    110 110 150 160 [(150, 160)] 105 120 300 400 [(300, 400)] rfl rfl
  have h2 := h.2.2.2.2 TLWin.new (by rfl)
  exact ⟨h.1, h.2.1, h2.1, h2.2⟩

/-- C3: the press captures the offset `pointer − top-left` and enters
dragging; every move while dragging sets the top-left to
`pointer − captured offset`.  Concretely, on a window at (100,100) a
press at (110,110), a move to (150,160), a release, and a further move to
(200,300) leave the top-left at (140,150): the post-release move has no
effect because the session's move listener was unregistered. -/
theorem drag_offset_move_semantics (s : DragSystem) (w : Nat) (win : TLWin)
    (px py mx my : Int)
    (hL : s.listeners = []) (hw : s.wins.get? w = some win) :
    ((DragSystem.step s (DragEvent.press w false px py)).wins.get? w =
      some { win with
             is_dragging := true
             dragClass := true
             offset_x := px - win.left
             offset_y := py - win.top }) ∧
    ((DragSystem.step (DragSystem.step s (DragEvent.press w false px py))
        (DragEvent.move mx my)).wins.get? w =
      some { win with
             is_dragging := true
             dragClass := true
             offset_x := px - win.left
             offset_y := py - win.top
             left := mx - (px - win.left)
             top := my - (py - win.top) }) ∧
    ((DragSystem.run { wins := [TLWin.new], listeners := [] }
        [DragEvent.press 0 false 110 110, DragEvent.move 150 160,
         DragEvent.release 150 160, DragEvent.move 200 300]).wins.get? 0 =
      some { TLWin.new with offset_x := 10, offset_y := 10, left := 140, top := 150}) := by
  have hlt : w < s.wins.length := (List.get?_eq_some.mp hw).1
  set dWin : TLWin :=
    { win with
      is_dragging := true
      dragClass := true
      offset_x := px - win.left
      offset_y := py - win.top } with hdWin
  set s1 : DragSystem :=
    { wins := s.wins.set w dWin
      listeners := [Handler.doDrag w, Handler.stopDrag w] } with hs1
  have hpress : DragSystem.step s (DragEvent.press w false px py) = s1 := by
    show Toplevel.start_drag s w false px py = s1
    unfold Toplevel.start_drag
    rw [hw]
    simp [hs1, hL, hdWin]
  have hw1 : s1.wins.get? w = some dWin := by
    rw [hs1]
    simp only [List.get?_eq_getElem?]
    exact List.getElem?_set_eq_of_lt dWin hlt
  refine ⟨by rw [hpress]; exact hw1, ?_, by rfl⟩
  have hmove : DragSystem.step s1 (DragEvent.move mx my) =
      Toplevel.do_drag s1 w mx my := dispatchMove_pair s1 w mx my (by rw [hs1])
  have hdo : Toplevel.do_drag s1 w mx my =
      { s1 with wins := (s1.wins.set w
          { dWin with left := mx - dWin.offset_x, top := my - dWin.offset_y }) } := by
    unfold Toplevel.do_drag
    rw [hw1]
    simp [hdWin]
  rw [hpress, hmove, hdo]
  have hlt1 : w < (s.wins.set w dWin).length := by simpa using hlt
  simp only [List.get?_eq_getElem?]
  rw [List.getElem?_set_eq_of_lt _ hlt1]

/-- Witness for `drag_offset_move_semantics`: the general conjuncts
applied to the concrete one-window system at (100,100) with a press at
(110,110) and a move to (150,160). -/
theorem drag_offset_move_semantics_witness :
    ((DragSystem.step { wins := [TLWin.new], listeners := [] }
        (DragEvent.press 0 false 110 110)).wins.get? 0 =
      some { TLWin.new with
             is_dragging := true
             dragClass := true
             offset_x := 10
             offset_y := 10 }) ∧
    ((DragSystem.step
        (DragSystem.step { wins := [TLWin.new], listeners := [] }
          (DragEvent.press 0 false 110 110))
        (DragEvent.move 150 160)).wins.get? 0 =
      some { TLWin.new with
             is_dragging := true
             dragClass := true
             offset_x := 10
             offset_y := 10
             left := 140
             top := 150 }) := by
  have h := drag_offset_move_semantics { wins := [TLWin.new], listeners := [] }
    0 TLWin.new 110 110 150 160 rfl rfl
  exact ⟨h.1, h.2.1⟩

/-- C10: calling `destroy` on a Floating Window while it is dragging
removes the window's surface (`inDom` becomes false) but performs no drag
teardown: the session's `do_drag` / `stop_drag` listeners stay registered
on the shared body, and `is_dragging` stays true. -/
theorem destroy_during_drag_leaks (s : DragSystem) (w : Nat) (win : TLWin)
    (hw : s.wins.get? w = some win) (hd : win.is_dragging = true)
    (hmem : Handler.doDrag w ∈ s.listeners ∧ Handler.stopDrag w ∈ s.listeners) :
    (DragSystem.step s (DragEvent.close w)).listeners = s.listeners ∧
    Handler.doDrag w ∈ (DragSystem.step s (DragEvent.close w)).listeners ∧
    Handler.stopDrag w ∈ (DragSystem.step s (DragEvent.close w)).listeners ∧
    (DragSystem.step s (DragEvent.close w)).wins.get? w =
      some { win with inDom := false } ∧
    (∀ win', (DragSystem.step s (DragEvent.close w)).wins.get? w = some win' →
      win'.is_dragging = true) := by
  have hlt : w < s.wins.length := (List.get?_eq_some.mp hw).1
  have hdes : DragSystem.step s (DragEvent.close w) =
      { s with wins := (s.wins.set w { win with inDom := false }) } := by
    show Toplevel.destroy s w = _
    unfold Toplevel.destroy
    rw [hw]
  have hget : ({ s with wins := (s.wins.set w { win with inDom := false }) }
      : DragSystem).wins.get? w = some { win with inDom := false } := by
    simp only [List.get?_eq_getElem?]
    exact List.getElem?_set_eq_of_lt _ hlt
  refine ⟨by rw [hdes], by rw [hdes]; exact hmem.1, by rw [hdes]; exact hmem.2,
    by rw [hdes]; exact hget, ?_⟩
  intro win' hwin'
  rw [hdes, hget] at hwin'
  have : win' = { win with inDom := false } := by
    injection hwin' with h
    exact h.symm
  rw [this]
  exact hd

/-- Witness for `destroy_during_drag_leaks`: a mid-drag one-window system
with the session pair bound; after `destroy`, both listeners are still
bound and the (removed) window still reports dragging. -/
theorem destroy_during_drag_leaks_witness :
    (DragSystem.step
      { wins := [{ TLWin.new with is_dragging := true, offset_x := 10, offset_y := 10 }]
        listeners := [Handler.doDrag 0, Handler.stopDrag 0] }
      (DragEvent.close 0)).listeners = [Handler.doDrag 0, Handler.stopDrag 0] ∧
    Handler.doDrag 0 ∈ (DragSystem.step
      { wins := [{ TLWin.new with is_dragging := true, offset_x := 10, offset_y := 10 }]
        listeners := [Handler.doDrag 0, Handler.stopDrag 0] }
      (DragEvent.close 0)).listeners := by
  have h := destroy_during_drag_leaks
    { wins := [{ TLWin.new with is_dragging := true, offset_x := 10, offset_y := 10 }]
      listeners := [Handler.doDrag 0, Handler.stopDrag 0] }
    0 { TLWin.new with is_dragging := true, offset_x := 10, offset_y := 10 }
    rfl rfl (by constructor <;> simp)
  exact ⟨h.1, h.2.1⟩

/-!
**Tab exclusivity**

The exclusivity invariant is provable only when the derived identifiers
are pairwise distinct.  When two titles collide (the spec flags this as
an undefined-behavior zone), the dict entry is overwritten while the
first pair's DOM nodes remain, and a subsequent select leaves two
visible panels.
-/

/-- C1 counterexample: the claim quantifies over *every* sequence of
`add_tab`/`select` operations, but adding titles "A" and "a" derives the
same identifier `tab-a` (dict entry overwritten, first pair orphaned in
the DOM) and then clicking a trigger makes `_select_tab` hide/show only
the dict-reachable pair: afterwards both panels are non-hidden and both
triggers have `aria-selected` true. -/
theorem notebook_tab_exclusivity_cex :
    (Notebook.run Notebook.init
      [NbEvent.addTab "A", NbEvent.addTab "a", NbEvent.click (some 1)]).doms =
      [{ id := "tab-a", selected := true, hidden := false },
       { id := "tab-a", selected := true, hidden := false }] ∧
    (Notebook.run Notebook.init
      [NbEvent.addTab "A", NbEvent.addTab "a", NbEvent.click (some 1)]).visibleCount
      = 2 := by
  refine ⟨by rfl, by rfl⟩

/-- Builds the association list that Python's dict holds after binding
the keys `ks` in order to the consecutive indices starting at `n`. -/
def dictOfAux (n : Nat) : List String → List (String × Nat)
  | [] => []
  | k :: ks => (k, n) :: dictOfAux (n + 1) ks

/-- The dict binding each key of `ks` to its index, as produced by a
collision-free sequence of `add_tab` calls. -/
def dictOf (ks : List String) : List (String × Nat) :=
  dictOfAux 0 ks

theorem mem_dictOfAux_key {n : Nat} {ks : List String}
    {p : String × Nat} (h : p ∈ dictOfAux n ks) : p.1 ∈ ks := by
  induction ks generalizing n with
  | nil => simp [dictOfAux] at h
  | cons k rest ih =>
    simp only [dictOfAux, List.mem_cons] at h
    rcases h with h | h
    · rw [h]; exact List.mem_cons_self _ _
    · exact List.mem_cons_of_mem _ (ih h)

theorem dictOfAux_append (n : Nat) (ks : List String) (k : String) :
    dictOfAux n (ks ++ [k]) = dictOfAux n ks ++ [(k, n + ks.length)] := by
  induction ks generalizing n with
  | nil => simp [dictOfAux]
  | cons k0 rest ih =>
    have harith : n + 1 + rest.length = n + (rest.length + 1) := by omega
    simp only [List.cons_append, dictOfAux, List.length_cons]
    rw [show rest.append [k] = rest ++ [k] from rfl, ih (n + 1), harith]

theorem dictGet_dictOfAux_of_not_mem {n : Nat} {ks : List String} {k : String}
    (h : k ∉ ks) : dictGet (dictOfAux n ks) k = none := by
  induction ks generalizing n with
  | nil => rfl
  | cons k0 rest ih =>
    have hne : k0 ≠ k := fun he => h (he ▸ List.mem_cons_self _ _)
    have hnm : k ∉ rest := fun hm => h (List.mem_cons_of_mem _ hm)
    simp only [dictOfAux, dictGet, List.find?]
    have : ((k0, n).1 == k) = false := by
      simp [hne]
    rw [this]
    exact ih hnm

theorem dictGet_dictOfAux_get? {ks : List String} {i : Nat} {k : String}
    (hnd : ks.Nodup) (h : ks.get? i = some k) (n : Nat) :
    dictGet (dictOfAux n ks) k = some (n + i) := by
  induction ks generalizing n i with
  | nil => simp at h
  | cons k0 rest ih =>
    cases i with
    | zero =>
      simp only [List.get?] at h
      injection h with h
      simp only [dictOfAux, dictGet, List.find?, h]
      simp
    | succ j =>
      simp only [List.get?] at h
      have hk : k ∈ rest := List.mem_iff_get?.mpr ⟨j, h⟩
      have hne : k0 ≠ k := fun he => ((List.nodup_cons.mp hnd).1 (he ▸ hk))
      have hfind : List.find? (fun p => p.1 == k) ((k0, n) :: dictOfAux (n + 1) rest) =
          List.find? (fun p => p.1 == k) (dictOfAux (n + 1) rest) :=
        List.find?_cons_of_neg _ (by simp [hne])
      calc dictGet (dictOfAux n (k0 :: rest)) k
          = dictGet (dictOfAux (n + 1) rest) k := by
            simp only [dictOfAux, dictGet, hfind]
        _ = some (n + 1 + j) := ih (List.nodup_cons.mp hnd).2 h (n + 1)
        _ = some (n + (j + 1)) := by rw [show n + 1 + j = n + (j + 1) from by omega]

theorem dictOfAux_eq_nil_iff {n : Nat} {ks : List String} :
    dictOfAux n ks = [] ↔ ks = [] := by
  cases ks with
  | nil => simp [dictOfAux]
  | cons k rest => simp [dictOfAux]

theorem set_get?_same {α : Type} (l : List α) (i : Nat) (a : α)
    (h : l.get? i = some a) : l.set i a = l := by
  induction l generalizing i with
  | nil => simp at h
  | cons x xs ih =>
    cases i with
    | zero =>
      simp only [List.get?] at h
      injection h with h
      rw [h]
      rfl
    | succ j =>
      simp only [List.get?] at h
      simp only [List.set]
      rw [ih j h]

theorem tabSet_map_id (l : List Tab) (i : Nat) (sel hid : Bool) :
    (tabSet l i sel hid).map Tab.id = l.map Tab.id := by
  unfold tabSet
  cases h : l.get? i with
  | none => rfl
  | some t =>
    rw [List.map_set]
    have hm : (l.map Tab.id).get? i = some t.id := by
      rw [List.get?_map, h]
      rfl
    exact set_get?_same _ _ _ hm

theorem tabSet_get?_self {l : List Tab} {i : Nat} {t : Tab} (sel hid : Bool)
    (h : l.get? i = some t) :
    (tabSet l i sel hid).get? i = some { t with selected := sel, hidden := hid } := by
  unfold tabSet
  rw [h]
  have hlt : i < l.length := (List.get?_eq_some.mp h).1
  simp only [List.get?_eq_getElem?]
  exact List.getElem?_set_eq_of_lt _ hlt

theorem tabSet_get?_ne {l : List Tab} {i j : Nat} (sel hid : Bool)
    (hne : i ≠ j) : (tabSet l i sel hid).get? j = l.get? j := by
  unfold tabSet
  cases h : l.get? i with
  | none => rfl
  | some t =>
    simp only [List.get?_eq_getElem?]
    exact List.getElem?_set_ne hne

/-- The per-DOM-node selection condition of a well-formed notebook whose
selected identifier is `tid`: a trigger's indicator is set and a panel is
non-hidden exactly on the nodes carrying `tid`. -/
def selMatches (doms : List Tab) (tid : String) : Prop :=
  ∀ i t, doms.get? i = some t →
    (t.selected = true ↔ t.id = tid) ∧ (t.hidden = false ↔ t.id = tid)

/-- The inductive invariant of a collision-free notebook: the DOM
identifiers are pairwise distinct, the dict binds exactly the identifiers
to their DOM indices, and the selected identifier (present unless there
are no tabs) governs every indicator and every panel's visibility. -/
def Notebook.wf (nb : Notebook) : Prop :=
  (nb.doms.map Tab.id).Nodup ∧
  nb.tabs = dictOf (nb.doms.map Tab.id) ∧
  (match nb.selected_tab with
   | none => nb.doms = []
   | some tid => tid ∈ nb.doms.map Tab.id ∧ selMatches nb.doms tid)

theorem wf_init : Notebook.init.wf :=
  ⟨List.nodup_nil, rfl, rfl⟩

theorem selMatches_append_other {doms : List Tab} {tid0 : String} (new : Tab)
    (hsm : selMatches doms tid0) (hne : new.id ≠ tid0)
    (hsel : new.selected = false) (hhid : new.hidden = true) :
    selMatches (doms ++ [new]) tid0 := by
  intro i t h
  by_cases hlt : i < doms.length
  · rw [List.get?_append hlt] at h
    exact hsm i t h
  · have hge : doms.length ≤ i := Nat.le_of_not_lt hlt
    rw [List.get?_append_right hge] at h
    cases hd : i - doms.length with
    | zero =>
      rw [hd] at h
      simp only [List.get?] at h
      injection h with h
      rw [← h]
      constructor
      · constructor
        · intro hc; rw [hsel] at hc; exact absurd hc (by simp)
        · intro hc; exact absurd hc hne
      · constructor
        · intro hc; rw [hhid] at hc; exact absurd hc (by simp)
        · intro hc; exact absurd hc hne
    | succ m =>
      rw [hd] at h
      simp only [List.get?] at h
      exact absurd h (by simp)

theorem selMatches_single (tid : String) :
    selMatches [{ id := tid, selected := true, hidden := false }] tid := by
  intro i t h
  cases i with
  | zero =>
    simp only [List.get?] at h
    injection h with h
    rw [← h]
    simp
  | succ j =>
    simp only [List.get?] at h
    exact absurd h (by simp)

theorem wf_add_tab (nb : Notebook) (title : String) (hwf : nb.wf)
    (hfresh : tabIdOf title ∉ nb.doms.map Tab.id) :
    (nb.add_tab title).wf := by
  obtain ⟨hnd, htabs, hsel⟩ := hwf
  have hnd2 : (nb.doms.map Tab.id ++ [tabIdOf title]).Nodup := by
    rw [List.nodup_append]
    refine ⟨hnd, List.nodup_singleton _, ?_⟩
    intro a ha hb
    rw [List.mem_singleton] at hb
    rw [hb] at ha
    exact hfresh ha
  have hanyfalse : (nb.tabs.any (fun p => p.1 == tabIdOf title)) = false := by
    rw [htabs]
    by_contra hx
    rw [Bool.not_eq_false, List.any_eq_true] at hx
    obtain ⟨p, hp, hpe⟩ := hx
    have hm := mem_dictOfAux_key hp
    rw [beq_iff_eq] at hpe
    rw [hpe] at hm
    exact hfresh hm
  have hdict : dictSet nb.tabs (tabIdOf title) nb.doms.length =
      dictOf (nb.doms.map Tab.id ++ [tabIdOf title]) := by
    have h1 : dictSet nb.tabs (tabIdOf title) nb.doms.length =
        nb.tabs ++ [(tabIdOf title, nb.doms.length)] := by
      unfold dictSet
      rw [hanyfalse]
      simp
    rw [h1, htabs]
    unfold dictOf
    rw [dictOfAux_append]
    simp [List.length_map]
  cases h0 : nb.tabs.isEmpty with
  | true =>
    have htnil : nb.tabs = [] := List.isEmpty_iff.mp h0
    have hidsnil : nb.doms.map Tab.id = [] := by
      rw [htabs] at htnil
      exact dictOfAux_eq_nil_iff.mp htnil
    have hdnil : nb.doms = [] := List.map_eq_nil.mp hidsnil
    refine ⟨?_, ?_, ?_⟩
    · show ((nb.add_tab title).doms.map Tab.id).Nodup
      simp only [Notebook.add_tab, h0]
      simpa using hnd2
    · show (nb.add_tab title).tabs = _
      simp only [Notebook.add_tab, h0]
      rw [hdict]
      simp [hdnil]
    · simp only [Notebook.add_tab, h0, hdnil, Notebook.wf]
      simp only [List.nil_append, List.isEmpty_nil]
      refine ⟨by simp, ?_⟩
      exact selMatches_single (tabIdOf title)
  | false =>
    have htne : nb.tabs ≠ [] := by
      intro hx
      rw [hx] at h0
      simp at h0
    have hdne : nb.doms ≠ [] := by
      intro hx
      apply htne
      rw [htabs, hx]
      rfl
    cases hsl : nb.selected_tab with
    | none =>
      rw [hsl] at hsel
      exact absurd hsel hdne
    | some tid0 =>
      rw [hsl] at hsel
      obtain ⟨htid0, hsm⟩ := hsel
      have hne : tabIdOf title ≠ tid0 := by
        intro hx
        rw [hx] at hfresh
        exact hfresh htid0
      refine ⟨?_, ?_, ?_⟩
      · show ((nb.add_tab title).doms.map Tab.id).Nodup
        simp only [Notebook.add_tab, h0]
        simpa using hnd2
      · show (nb.add_tab title).tabs = _
        simp only [Notebook.add_tab, h0]
        rw [hdict]
        simp
      · simp only [Notebook.add_tab, h0, hsl, Notebook.wf]
        refine ⟨?_, ?_⟩
        · simp only [List.map_append]
          exact List.mem_append_left _ htid0
        · exact selMatches_append_other _ hsm hne rfl rfl

theorem map_id_inj {l : List Tab} (hnd : (l.map Tab.id).Nodup) {p q : Nat}
    {u v : Tab} (hp : l.get? p = some u) (hq : l.get? q = some v)
    (heq : u.id = v.id) : p = q := by
  have hp1 : (l.map Tab.id).get? p = some u.id := by
    rw [List.get?_map, hp]
    rfl
  have hq1 : (l.map Tab.id).get? q = some v.id := by
    rw [List.get?_map, hq]
    rfl
  have hlt : p < (l.map Tab.id).length := (List.get?_eq_some.mp hp1).1
  apply List.getElem?_inj hlt hnd
  rw [← List.get?_eq_getElem?, ← List.get?_eq_getElem?, hp1, hq1, heq]

theorem wf_click (nb : Notebook) (tg : Option Nat) (hwf : nb.wf) :
    (nb.on_tab_click tg).wf := by
  obtain ⟨hnd, htabs, hsel⟩ := hwf
  cases tg with
  | none => exact ⟨hnd, htabs, hsel⟩
  | some i =>
    cases hgi : nb.doms.get? i with
    | none =>
      have hres : nb.on_tab_click (some i) = nb := by
        simp only [Notebook.on_tab_click, hgi]
      rw [hres]
      exact ⟨hnd, htabs, hsel⟩
    | some t =>
      have hdne : nb.doms ≠ [] := by
        intro hx
        rw [hx] at hgi
        simp at hgi
      cases hsl : nb.selected_tab with
      | none =>
        rw [hsl] at hsel
        exact absurd hsel hdne
      | some tid0 =>
        rw [hsl] at hsel
        obtain ⟨htid0, hsm⟩ := hsel
        -- the DOM index currently selected
        obtain ⟨j, hj⟩ := List.mem_iff_get?.mp htid0
        have hjd : ∃ tj : Tab, nb.doms.get? j = some tj ∧ tj.id = tid0 := by
          rw [List.get?_map] at hj
          cases hgj : nb.doms.get? j with
          | none => rw [hgj] at hj; simp at hj
          | some tj =>
            rw [hgj] at hj
            simp only [Option.map_some'] at hj
            injection hj with hj
            exact ⟨tj, rfl, hj⟩
        obtain ⟨tj, hgj, htj⟩ := hjd
        have hdg0 : dictGet nb.tabs tid0 = some j := by
          rw [htabs]
          have := dictGet_dictOfAux_get? hnd hj 0
          simpa using this
        -- the clicked identifier's DOM index
        have hi : (nb.doms.map Tab.id).get? i = some t.id := by
          rw [List.get?_map, hgi]
          rfl
        have hdg1 : dictGet nb.tabs t.id = some i := by
          rw [htabs]
          have := dictGet_dictOfAux_get? hnd hi 0
          simpa using this
        have hclear : nb.clearSelected =
            { nb with doms := tabSet nb.doms j false true } := by
          simp only [Notebook.clearSelected, hsl, hdg0]
        set nb2 : Notebook :=
          { nb with
            doms := tabSet (tabSet nb.doms j false true) i true false
            selected_tab := some t.id } with hnb2
        have hdg1b : dictGet ({ nb with doms := tabSet nb.doms j false true } :
            Notebook).tabs t.id = some i := hdg1
        have hselect : nb.select_tab t.id = some nb2 := by
          simp only [Notebook.select_tab, hclear, hdg1b]
        have hres : nb.on_tab_click (some i) = nb2 := by
          simp only [Notebook.on_tab_click, hgi, hselect]
        rw [hres]
        have hmap2 : nb2.doms.map Tab.id = nb.doms.map Tab.id := by
          rw [show nb2.doms = tabSet (tabSet nb.doms j false true) i true false
            from rfl]
          rw [tabSet_map_id, tabSet_map_id]
        refine ⟨?_, ?_, ?_⟩
        · rw [hmap2]
          exact hnd
        · rw [show nb2.tabs = nb.tabs from rfl, hmap2, htabs]
        · rw [show nb2.selected_tab = some t.id from rfl]
          refine ⟨?_, ?_⟩
          · rw [hmap2]
            exact List.mem_iff_get?.mpr ⟨i, hi⟩
          · -- the selection condition for the new selected identifier
            intro p u hpu
            rw [show nb2.doms = tabSet (tabSet nb.doms j false true) i true false
              from rfl] at hpu
            by_cases hpi : p = i
            · subst hpi
              have hinner : (tabSet nb.doms j false true).get? p =
                  some (if p = j then { t with selected := false, hidden := true }
                    else t) := by
                by_cases hpj : p = j
                · subst hpj
                  have : t = tj := by
                    have := hgi.symm.trans hgj
                    injection this
                  rw [if_pos rfl]
                  rw [← this] at hgj
                  exact tabSet_get?_self false true hgj
                · rw [if_neg hpj]
                  rw [tabSet_get?_ne false true (fun h => hpj h.symm)]
                  exact hgi
              have houter := tabSet_get?_self true false hinner
              rw [houter] at hpu
              injection hpu with hpu
              rw [← hpu]
              by_cases hpj : p = j <;> simp [hpj]
            · have houter : (tabSet (tabSet nb.doms j false true) i true false).get? p =
                  (tabSet nb.doms j false true).get? p :=
                tabSet_get?_ne true false (fun h => hpi h.symm)
              rw [houter] at hpu
              by_cases hpj : p = j
              · subst hpj
                have hinner := tabSet_get?_self false true hgj
                rw [hinner] at hpu
                injection hpu with hpu
                rw [← hpu]
                have hne : tj.id ≠ t.id := by
                  intro hx
                  exact hpi (map_id_inj hnd hgj hgi hx)
                simp [hne]
              · have hinner : (tabSet nb.doms j false true).get? p =
                    nb.doms.get? p :=
                  tabSet_get?_ne false true (fun h => hpj h.symm)
                rw [hinner] at hpu
                have hold := hsm p u hpu
                have hneid0 : u.id ≠ tid0 := by
                  intro hx
                  exact hpj (map_id_inj hnd hpu hgj (hx.trans htj.symm))
                have hneidt : u.id ≠ t.id := by
                  intro hx
                  exact hpi (map_id_inj hnd hpu hgi hx)
                have husel : u.selected = false := by
                  cases hcs : u.selected with
                  | false => rfl
                  | true => exact absurd (hold.1.mp hcs) hneid0
                have huhid : u.hidden = true := by
                  cases hch : u.hidden with
                  | true => rfl
                  | false => exact absurd (hold.2.mp hch) hneid0
                rw [husel, huhid]
                constructor
                · constructor
                  · intro hc; exact absurd hc (by simp)
                  · intro hc; exact absurd hc hneidt
                · constructor
                  · intro hc; exact absurd hc (by simp)
                  · intro hc; exact absurd hc hneidt

theorem clearSelected_map_id (nb : Notebook) :
    nb.clearSelected.doms.map Tab.id = nb.doms.map Tab.id := by
  cases hsl : nb.selected_tab with
  | none => simp only [Notebook.clearSelected, hsl]
  | some st =>
    cases hdg : dictGet nb.tabs st with
    | none => simp only [Notebook.clearSelected, hsl, hdg]
    | some i =>
      simp only [Notebook.clearSelected, hsl, hdg]
      exact tabSet_map_id _ _ _ _

theorem select_tab_map_id (nb : Notebook) (tid : String) (nb2 : Notebook)
    (h : nb.select_tab tid = some nb2) :
    nb2.doms.map Tab.id = nb.doms.map Tab.id := by
  simp only [Notebook.select_tab] at h
  cases hd : dictGet nb.clearSelected.tabs tid with
  | none => rw [hd] at h; simp at h
  | some i =>
    rw [hd] at h
    simp only [Option.some.injEq] at h
    rw [← h]
    show (tabSet nb.clearSelected.doms i true false).map Tab.id = _
    rw [tabSet_map_id]
    exact clearSelected_map_id nb

theorem click_map_id (nb : Notebook) (tg : Option Nat) :
    (nb.on_tab_click tg).doms.map Tab.id = nb.doms.map Tab.id := by
  cases tg with
  | none => rfl
  | some i =>
    cases hgi : nb.doms.get? i with
    | none => simp only [Notebook.on_tab_click, hgi]
    | some t =>
      cases hs : nb.select_tab t.id with
      | none =>
        have hres : nb.on_tab_click (some i) = nb.clearSelected := by
          simp only [Notebook.on_tab_click, hgi, hs]
        rw [hres]
        exact clearSelected_map_id nb
      | some nb2 =>
        have hres : nb.on_tab_click (some i) = nb2 := by
          simp only [Notebook.on_tab_click, hgi, hs]
        rw [hres]
        exact select_tab_map_id nb t.id nb2 hs

theorem wf_run (es : List NbEvent) (nb : Notebook) (hwf : nb.wf)
    (h : (nb.doms.map Tab.id ++ addedIds es).Nodup) :
    (Notebook.run nb es).wf := by
  induction es generalizing nb with
  | nil => exact hwf
  | cons e rest ih =>
    have hrun : Notebook.run nb (e :: rest) = Notebook.run (nb.step e) rest := rfl
    rw [hrun]
    cases e with
    | addTab title =>
      have haid : addedIds (NbEvent.addTab title :: rest) =
          tabIdOf title :: addedIds rest := rfl
      rw [haid] at h
      have hfresh : tabIdOf title ∉ nb.doms.map Tab.id := by
        intro hx
        exact (List.nodup_append.mp h).2.2 hx (List.mem_cons_self _ _)
      have hwf2 := wf_add_tab nb title hwf hfresh
      have hmap : (nb.add_tab title).doms.map Tab.id =
          nb.doms.map Tab.id ++ [tabIdOf title] := by
        simp [Notebook.add_tab]
      apply ih (nb.add_tab title) hwf2
      rw [hmap, List.append_assoc]
      simpa using h
    | click tg =>
      have hwf2 := wf_click nb tg hwf
      apply ih _ hwf2
      show ((nb.on_tab_click tg).doms.map Tab.id ++ addedIds rest).Nodup
      rw [click_map_id]
      exact h

theorem filter_length_one {l : List Tab} {tid : String} {p : Tab → Bool}
    (hnd : (l.map Tab.id).Nodup) (hmem : tid ∈ l.map Tab.id)
    (hp : ∀ t ∈ l, (p t = true ↔ t.id = tid)) :
    (l.filter p).length = 1 := by
  induction l with
  | nil => simp at hmem
  | cons t ts ih =>
    rw [List.map_cons, List.nodup_cons] at hnd
    rw [List.map_cons, List.mem_cons] at hmem
    by_cases hid : t.id = tid
    · have hpt : p t = true := (hp t (List.mem_cons_self t ts)).mpr hid
      have hrest : ts.filter p = [] := by
        rw [List.filter_eq_nil_iff]
        intro u hu hpu
        have hu2 : u.id = tid := (hp u (List.mem_cons_of_mem _ hu)).mp hpu
        apply hnd.1
        rw [hid, ← hu2]
        exact List.mem_map_of_mem Tab.id hu
      rw [List.filter_cons_of_pos hpt, hrest]
      rfl
    · have hpt : ¬ (p t = true) := fun hc => hid ((hp t (List.mem_cons_self t ts)).mp hc)
      have hmem2 : tid ∈ ts.map Tab.id := by
        rcases hmem with hx | hx
        · exact absurd hx.symm hid
        · exact hx
      rw [List.filter_cons_of_neg hpt]
      exact ih hnd.2 hmem2 (fun u hu => hp u (List.mem_cons_of_mem _ hu))

theorem wf_exclusive (nb : Notebook) (hwf : nb.wf) : nb.exclusive := by
  obtain ⟨hnd, htabs, hsel⟩ := hwf
  constructor
  · intro hd
    unfold Notebook.visibleCount
    rw [hd]
    rfl
  · intro hd
    cases hsl : nb.selected_tab with
    | none =>
      rw [hsl] at hsel
      exact absurd hsel hd
    | some tid0 =>
      rw [hsl] at hsel
      obtain ⟨htid0, hsm⟩ := hsel
      have hcond : ∀ t ∈ nb.doms, ((fun t => !t.hidden) t = true ↔ t.id = tid0) := by
        intro t ht
        obtain ⟨p, hp⟩ := List.mem_iff_get?.mp ht
        have hcc := (hsm p t hp).2
        constructor
        · intro hx
          exact hcc.mp (by simpa using hx)
        · intro hx
          simpa using hcc.mpr hx
      refine ⟨filter_length_one hnd htid0 hcond, tid0, rfl, ?_⟩
      intro t ht
      obtain ⟨p, hp⟩ := List.mem_iff_get?.mp ht
      exact ⟨(hsm p t hp).2, (hsm p t hp).1⟩

/-- C1 (amended): for every sequence of `add_tab` and trigger-click
select operations whose `add_tab` titles derive pairwise-distinct
identifiers, after each operation (i.e. after every prefix of the
sequence) exactly one panel is non-hidden (zero when no tabs exist), a
selected identifier is recorded, and a panel is visible / a trigger's
`aria-selected` is true exactly for the nodes carrying the selected
identifier.  The distinctness hypothesis is forced by the
counterexample: with colliding identifiers the code violates the
invariant. -/
theorem notebook_tab_exclusivity (es : List NbEvent)
    (h : (addedIds es).Nodup) (pre suf : List NbEvent)
    (hsplit : es = pre ++ suf) :
    (Notebook.run Notebook.init pre).exclusive := by
  have hpre : (addedIds pre).Nodup := by
    rw [hsplit] at h
    have happ : addedIds (pre ++ suf) = addedIds pre ++ addedIds suf := by
      unfold addedIds
      exact List.filterMap_append _ _ _
    rw [happ] at h
    exact List.Nodup.of_append_left h
  have hwf := wf_run pre Notebook.init wf_init (by simpa using hpre)
  exact wf_exclusive _ hwf

/-- Witness for `notebook_tab_exclusivity`: the spec's end-to-end
scenario — add "Greetings" and "Widgets", then click the "Widgets"
trigger — satisfies the invariant after the full sequence, and the
selected identifier is `tab-widgets`. -/
theorem notebook_tab_exclusivity_witness :
    (Notebook.run Notebook.init
      [NbEvent.addTab "Greetings", NbEvent.addTab "Widgets",
       NbEvent.click (some 1)]).exclusive ∧
    (Notebook.run Notebook.init
      [NbEvent.addTab "Greetings", NbEvent.addTab "Widgets",
       NbEvent.click (some 1)]).selected_tab = some "tab-widgets" := by
  refine ⟨notebook_tab_exclusivity
    [NbEvent.addTab "Greetings", NbEvent.addTab "Widgets", NbEvent.click (some 1)]
    (by decide) _ [] (by simp), by rfl⟩
